import Mathlib

/-!
Shallow embedding of the multitoken pallet (`src/lib.rs`): a ledger of
token collections with per-collection, per-account balances, operator
approvals, and a unified transfer/mint/burn routine (`update`).

Accounts and collection ids are modelled as `Nat`; amounts are modelled as
`Int` (the Rust `Amount` type is unsigned, so nonnegativity of inputs is
carried as an explicit hypothesis where it matters and proved preserved as
an invariant).  Storage maps become total functions with `Option` values
(`OptionQuery`) or defaults (`ValueQuery`); dispatch results become
`Except DispatchError State`.  Events are accumulated in an explicit list.
-/

namespace Multitoken

abbrev AccountId := Nat
abbrev CollectionId := Nat
abbrev Amount := Int

/-- Modelled from the spec: the concrete `CollectionId` type instantiating the
`Next` trait lives in the test mock, which is not under `src/`; the spec
describes it as a deterministic strictly-increasing "next value" operation
starting from a default/zero value, so we take `Nat` successor. -/
def next (n : CollectionId) : CollectionId := n + 1

/-- Runtime origins: `ensure_signed` accepts exactly `signed`,
`ensure_root` accepts exactly `root`. -/
inductive Origin where
  | root
  | signed (who : AccountId)
  | none_
  deriving DecidableEq, Repr

/-- The pallet's error enum (`Error<T>` in `src/lib.rs`). -/
inductive PalletError where
  | InvalidOperator
  | InsufficientApprovalForAll
  | InvalidArrayLength
  | InsufficientBalance
  | CollectionDoesNotExist
  | InvalidOwner
  deriving DecidableEq, Repr

/-- A dispatch error: either a bad origin (from `ensure_signed` /
`ensure_root`) or a pallet error. -/
inductive DispatchError where
  | BadOrigin
  | Module (e : PalletError)
  deriving DecidableEq, Repr

/-- The pallet's event enum (`Event<T>` in `src/lib.rs`). -/
inductive Event where
  | CollectionCreated (id : CollectionId) (owner : AccountId)
  | TransferSingle (operator : AccountId) (source target : Option AccountId)
      (id : CollectionId) (value : Amount)
  | TransferBatch (operator : AccountId) (source target : Option AccountId)
      (ids : List CollectionId) (values : List Amount)
  | ApprovalForAll (account operator : AccountId) (approved : Bool)
  deriving DecidableEq, Repr

/-- The pallet's storage: `NextCollectionId`, `Collections`, `Balances`,
`OperatorApprovals`, plus the list of deposited events (appended at the
end, so chronological order). -/
structure State where
  nextCollectionId : CollectionId
  collections : CollectionId → Option AccountId
  balances : CollectionId → AccountId → Option Amount
  operatorApprovals : AccountId → AccountId → Bool
  events : List Event

/-- The genesis state: zero counter, empty maps, no events. -/
def initState : State where
  nextCollectionId := 0
  collections := fun _ => none
  balances := fun _ _ => none
  operatorApprovals := fun _ _ => false
  events := []

def ensure_signed (o : Origin) : Except DispatchError AccountId :=
  match o with
  | .signed who => .ok who
  | _ => .error .BadOrigin

def ensure_root (o : Origin) : Except DispatchError Unit :=
  match o with
  | .root => .ok ()
  | _ => .error .BadOrigin

/-- `Balances::<T>::insert(id, account, value)`. -/
def insertBalance (s : State) (id : CollectionId) (account : AccountId)
    (value : Amount) : State :=
  { s with balances := fun c a =>
      if c = id ∧ a = account then some value else s.balances c a }

/-- `OperatorApprovals::<T>::insert(owner, operator, approved)`. -/
def insertApproval (s : State) (owner operator : AccountId)
    (approved : Bool) : State :=
  { s with operatorApprovals := fun ow op =>
      if ow = owner ∧ op = operator then approved else s.operatorApprovals ow op }

/-- `Collections::<T>::insert(id, owner)`. -/
def insertCollection (s : State) (id : CollectionId) (owner : AccountId) : State :=
  { s with collections := fun c => if c = id then some owner else s.collections c }

/-- `Self::deposit_event(e)`. -/
def depositEvent (s : State) (e : Event) : State :=
  { s with events := s.events ++ [e] }

/-- The `from` branch of the loop body of `update`: read the balance entry
(`CollectionDoesNotExist` when absent), require `from_balance >= amount`
(`InsufficientBalance` otherwise), and store `from_balance - amount`. -/
def debit (s : State) (id : CollectionId) (source : AccountId)
    (amount : Amount) : Except DispatchError State :=
  match s.balances id source with
  | none => .error (.Module .CollectionDoesNotExist)
  | some from_balance =>
    if from_balance ≥ amount then
      .ok (insertBalance s id source (from_balance - amount))
    else
      .error (.Module .InsufficientBalance)

/-- One iteration of the loop in `update`: the `from` branch (debit) then
the `to` branch, which unconditionally stores `amount`
(`Balances::<T>::insert(id, to, amount)`). -/
def updateStep (source target : Option AccountId) (s : State)
    (id : CollectionId) (amount : Amount) : Except DispatchError State := do
  let s₁ ← match source with
    | some f => debit s id f amount
    | none => .ok s
  .ok (match target with
    | some t => insertBalance s₁ id t amount
    | none => s₁)

/-- The `for i in 0..ids.len()` loop of `update`, on the zipped pairs. -/
def updateLoop (source target : Option AccountId) :
    State → List (CollectionId × Amount) → Except DispatchError State
  | s, [] => .ok s
  | s, (id, amount) :: rest => do
    updateLoop source target (← updateStep source target s id amount) rest

/-- `Pallet::update`: length check, the per-index loop, then the event
whose shape depends on `ids.len() == 1`. -/
def update (operator : AccountId) (source target : Option AccountId)
    (ids : List CollectionId) (amounts : List Amount) (s : State) :
    Except DispatchError State := do
  if ids.length = amounts.length then
    let s' ← updateLoop source target s (ids.zip amounts)
    if ids.length = 1 then
      .ok (depositEvent s' (.TransferSingle operator source target
        (ids.getD 0 0) (amounts.getD 0 0)))
    else
      .ok (depositEvent s' (.TransferBatch operator source target ids amounts))
  else
    .error (.Module .InvalidArrayLength)

/-- Extrinsic `set_approval_for_all`. -/
def set_approval_for_all (origin : Origin) (operator : AccountId)
    (approved : Bool) (s : State) : Except DispatchError State := do
  let owner ← ensure_signed origin
  if owner ≠ operator then
    .ok (depositEvent (insertApproval s owner operator approved)
      (.ApprovalForAll owner operator approved))
  else
    .error (.Module .InvalidOperator)

/-- Extrinsic `safe_transfer_from`.  Note the guard is
`ensure!(from != sender, InsufficientApprovalForAll)` in the source:
it rejects `from == sender` and lets every other caller through. -/
def safe_transfer_from (origin : Origin) (source dest : AccountId)
    (id : CollectionId) (amount : Amount) (s : State) :
    Except DispatchError State := do
  let sender ← ensure_signed origin
  if source ≠ sender then
    update sender (some source) (some dest) [id] [amount] s
  else
    .error (.Module .InsufficientApprovalForAll)

/-- `Pallet::is_approved_for_all`: `ValueQuery`, missing entry reads `false`. -/
def is_approved_for_all (s : State) (account operator : AccountId) : Bool :=
  s.operatorApprovals account operator

/-- Extrinsic `safe_batch_transfer_from`. -/
def safe_batch_transfer_from (origin : Origin) (source dest : AccountId)
    (ids : List CollectionId) (amounts : List Amount) (s : State) :
    Except DispatchError State := do
  let sender ← ensure_signed origin
  if source = sender ∨ is_approved_for_all s source sender then
    update sender (some source) (some dest) ids amounts s
  else
    .error (.Module .InsufficientApprovalForAll)

/-- Extrinsic `mint`: requires the collection to exist and the sender to be
its recorded owner. -/
def mint (origin : Origin) (dest : AccountId) (id : CollectionId)
    (amount : Amount) (s : State) : Except DispatchError State := do
  let sender ← ensure_signed origin
  match s.collections id with
  | some owner =>
    if owner = sender then
      update sender none (some dest) [id] [amount] s
    else
      .error (.Module .InvalidOwner)
  | none => .error (.Module .CollectionDoesNotExist)

/-- Extrinsic `mint_batch`: `ensure_root(origin.clone())?` followed by
`ensure_signed(origin)?` on the same origin. -/
def mint_batch (origin : Origin) (dest : AccountId)
    (ids : List CollectionId) (amounts : List Amount) (s : State) :
    Except DispatchError State := do
  let _ ← ensure_root origin
  let sender ← ensure_signed origin
  update sender none (some dest) ids amounts s

/-- Extrinsic `burn`. -/
def burn (origin : Origin) (id : CollectionId) (amount : Amount)
    (s : State) : Except DispatchError State := do
  let sender ← ensure_signed origin
  update sender (some sender) none [id] [amount] s

/-- Extrinsic `burn_batch`. -/
def burn_batch (origin : Origin) (ids : List CollectionId)
    (amounts : List Amount) (s : State) : Except DispatchError State := do
  let sender ← ensure_signed origin
  update sender (some sender) none ids amounts s

/-- Extrinsic `create`: allocate `NextCollectionId`, record the owner,
advance the counter, deposit `CollectionCreated`. -/
def create (origin : Origin) (s : State) : Except DispatchError State := do
  let sender ← ensure_signed origin
  let collection_id := s.nextCollectionId
  let s₁ := insertCollection s collection_id sender
  let s₂ := { s₁ with nextCollectionId := next collection_id }
  .ok (depositEvent s₂ (.CollectionCreated collection_id sender))

/-- `Pallet::balance_of`: missing entry reads as the default (zero). -/
def balance_of (s : State) (account : AccountId) (id : CollectionId) : Amount :=
  (s.balances id account).getD 0

/-- Outcome of a Rust computation that may panic. -/
inductive RustResult (α : Type) where
  | panic
  | ok (val : α)
  deriving DecidableEq, Repr

/-- `balances[i] = x` on a `Vec`: in-bounds write, panic otherwise. -/
def vecSet (l : List Amount) (i : Nat) (x : Amount) : Option (List Amount) :=
  if i < l.length then some (l.set i x) else none

/-- The `for i in 0..len` loop of `balance_of_batch`, starting from the
vector produced by `Vec::with_capacity(len)` (which has length 0).  `fuel`
counts the remaining iterations; `i` is the current index. -/
def bobLoop (s : State) (accounts : List AccountId) (ids : List CollectionId) :
    Nat → Nat → List Amount → RustResult (List Amount)
  | _, 0, acc => .ok acc
  | i, fuel + 1, acc =>
    match accounts[i]?, ids[i]? with
    | some a, some c =>
      match vecSet acc i (balance_of s a c) with
      | some acc' => bobLoop s accounts ids (i + 1) fuel acc'
      | none => .panic
    | _, _ => .panic

/-- `Pallet::balance_of_batch`: `None` on a length mismatch, otherwise the
loop writing through `balances[i]` into a vector of length 0. -/
def balance_of_batch (s : State) (accounts : List AccountId)
    (ids : List CollectionId) : RustResult (Option (List Amount)) :=
  let len := accounts.length
  if len ≠ ids.length then
    .ok none
  else
    match bobLoop s accounts ids 0 len [] with
    | .ok balances => .ok (some balances)
    | .panic => .panic

/-- The ids handed out by a sequence of `create` calls (each id is read
from the pre-state counter, as `create` does). -/
def createdIds : List AccountId → State → List CollectionId
  | [], _ => []
  | a :: rest, s =>
    match create (.signed a) s with
    | .ok s' => s.nextCollectionId :: createdIds rest s'
    | .error _ => []

/-- All stored balance entries are nonnegative (the representation
invariant of the unsigned Rust `Amount` type). -/
def NonnegState (s : State) : Prop :=
  ∀ c a b, s.balances c a = some b → 0 ≤ b

/-- All amounts in a list are nonnegative (what the unsigned Rust argument
types guarantee about extrinsic inputs). -/
def NonnegAmounts (amounts : List Amount) : Prop :=
  ∀ x ∈ amounts, 0 ≤ x

/-- Sample state: account 2 holds 7 units of collection 0. -/
def exState : State := insertBalance initState 0 2 7

/-- Sample state: collection 0 exists and is owned by account 1. -/
def exOwned : State := insertCollection initState 0 1

/-- The state produced by the single-element mint-shaped update
`update 1 none (some 2) [0] [5]` on the genesis state. -/
def exMintState : State :=
  depositEvent (insertBalance initState 0 2 5)
    (.TransferSingle 1 none (some 2) 0 5)

/-- The state produced by the two-element mint-shaped update
`update 1 none (some 2) [0, 1] [5, 6]` on the genesis state. -/
def exBatchState : State :=
  depositEvent (insertBalance (insertBalance initState 0 2 5) 1 2 6)
    (.TransferBatch 1 none (some 2) [0, 1] [5, 6])

/-- The state produced by `burn (.signed 2) 0 5` on `exState`. -/
def exBurnState : State :=
  depositEvent (insertBalance exState 0 2 2)
    (.TransferSingle 2 (some 2) none 0 5)

end Multitoken

namespace Multitoken

@[simp]
theorem ok_bind {α β : Type} (a : α) (f : α → Except DispatchError β) :
    (Except.ok a >>= f) = f a := rfl

@[simp]
theorem error_bind {α β : Type} (e : DispatchError)
    (f : α → Except DispatchError β) :
    ((Except.error e : Except DispatchError α) >>= f) = .error e := rfl

theorem updateStep_events {source target : Option AccountId} {s s' : State}
    {id : CollectionId} {amount : Amount}
    (h : updateStep source target s id amount = .ok s') :
    s'.events = s.events := by
  unfold updateStep at h
  cases source with
  | none =>
    simp only [ok_bind] at h
    cases target <;> (simp only [Except.ok.injEq] at h; subst h; rfl)
  | some f =>
    unfold debit at h
    cases hb : s.balances id f with
    | none => simp [hb] at h
    | some b =>
      simp only [hb] at h
      by_cases hge : b ≥ amount
      · simp only [if_pos hge, ok_bind] at h
        cases target <;> (simp only [Except.ok.injEq] at h; subst h; rfl)
      · simp [if_neg hge] at h

theorem updateLoop_events {source target : Option AccountId} :
    ∀ {l : List (CollectionId × Amount)} {s s' : State},
    updateLoop source target s l = .ok s' → s'.events = s.events := by
  intro l
  induction l with
  | nil => intro s s' h; simp [updateLoop] at h; simp [h]
  | cons p rest ih =>
    intro s s' h
    obtain ⟨id, amount⟩ := p
    unfold updateLoop at h
    cases hs : updateStep source target s id amount with
    | error e => simp [hs] at h
    | ok s₁ =>
      simp only [hs, ok_bind] at h
      rw [ih h, updateStep_events hs]

/-- C1: the spec says `safe_transfer_from` is authorized exactly when the
caller equals `from`.  The code has the guard inverted
(`ensure!(from != sender, ...)`): with account 2 holding 7 units of
collection 0 and no approvals at all, the self-transfer by account 1
(caller == from) fails with `InsufficientApprovalForAll`, while the
transfer of account 2's tokens by the unrelated caller 1 (caller != from,
no approval) goes through and succeeds. -/
theorem C1_safe_transfer_from_auth_inverted :
    safe_transfer_from (.signed 1) 1 2 0 5 exState
      = .error (.Module .InsufficientApprovalForAll)
    ∧ (safe_transfer_from (.signed 1) 2 1 0 5 exState).isOk = true :=
  ⟨rfl, by decide⟩

/-- C2: the spec says a root-privileged origin with equal-length arrays
succeeds in `mint_batch`.  The code runs `ensure_root(origin.clone())?`
and then `ensure_signed(origin)?` on the same origin; no origin satisfies
both, so `mint_batch` never returns `Ok` for any origin, arguments, or
state. -/
theorem C2_mint_batch_never_ok (o : Origin) (dest : AccountId)
    (ids : List CollectionId) (amounts : List Amount) (s : State) :
    (mint_batch o dest ids amounts s).isOk = false := by
  cases o <;> rfl

/-- C3: the `to` branch of `update` (the credit step) unconditionally
stores `amount`, never fails, and overwrites whatever was there: two
sequential single-credit updates (two mints) of `x1` then `x2` to the same
`(c, acc)` leave the balance at exactly `x2`. -/
theorem C3_credit_overwrites (s : State) (op1 op2 acc : AccountId)
    (c : CollectionId) (x1 x2 : Amount) :
    ∃ s1 s2, update op1 none (some acc) [c] [x1] s = .ok s1
      ∧ s1.balances c acc = some x1
      ∧ update op2 none (some acc) [c] [x2] s1 = .ok s2
      ∧ s2.balances c acc = some x2 := by
  refine ⟨_, _, rfl, ?_, rfl, ?_⟩ <;>
    simp [update, updateLoop, updateStep, insertBalance, depositEvent]

/-- C9: `update` checks `ids.len() == amounts.len()` before touching any
balance or depositing any event; on a mismatch it fails immediately with
`InvalidArrayLength` (the returned computation yields no successor state,
so nothing is mutated). -/
theorem C9_update_length_mismatch (s : State) (op : AccountId)
    (source target : Option AccountId) (ids : List CollectionId)
    (amounts : List Amount) (h : ids.length ≠ amounts.length) :
    update op source target ids amounts s = .error (.Module .InvalidArrayLength) := by
  simp [update, h]

/-- Witness for C9 at `ids = [1, 2]`, `amounts = [10]`. -/
theorem C9_witness :
    ([1, 2] : List CollectionId).length ≠ ([10] : List Amount).length
    ∧ update 3 (some 1) (some 2) [1, 2] [10] exState
        = .error (.Module .InvalidArrayLength) :=
  ⟨by decide, C9_update_length_mismatch exState 3 (some 1) (some 2) [1, 2] [10] (by decide)⟩

/-- C4: the spec says that with equal-length (including non-empty) inputs
`balance_of_batch` totally evaluates and returns the pointwise balances.
In the code, the result vector comes from `Vec::with_capacity(len)`, which
has length 0, and the loop writes through `balances[i] = ...`: the very
first iteration indexes out of bounds, so every call with equal non-empty
lengths panics.  Only the mismatch case (`None`) and the empty case
(`Some []`) behave as claimed. -/
theorem C4_balance_of_batch_panics :
    balance_of_batch initState [7] [0, 1] = .ok none
    ∧ balance_of_batch initState [] [] = .ok (some [])
    ∧ balance_of_batch initState [1] [0] = .panic
    ∧ balance_of_batch exState [2] [0] = .panic := by
  decide

/-- C5: the debit step (`from` branch of `update`): no entry for
`(c, from)` fails `CollectionDoesNotExist`; an entry `b < x` fails
`InsufficientBalance` (the failure aborts the dispatch, so the entry is
left unchanged); an entry `b ≥ x` is replaced by `b - x`.  In particular a
single-element `burn` of more than the held amount fails
`InsufficientBalance`. -/
theorem C5_debit_cases (s : State) (f : AccountId) (c : CollectionId)
    (x : Amount) :
    (s.balances c f = none →
      debit s c f x = .error (.Module .CollectionDoesNotExist))
    ∧ (∀ b, s.balances c f = some b → b < x →
        debit s c f x = .error (.Module .InsufficientBalance))
    ∧ (∀ b, s.balances c f = some b → x ≤ b →
        debit s c f x = .ok (insertBalance s c f (b - x))
          ∧ (insertBalance s c f (b - x)).balances c f = some (b - x))
    ∧ (∀ b, s.balances c f = some b → b < x →
        burn (.signed f) c x s = .error (.Module .InsufficientBalance)) := by
  refine ⟨?_, ?_, ?_, ?_⟩
  · intro h
    simp [debit, h]
  · intro b hb hlt
    simp [debit, hb, not_le.mpr hlt]
  · intro b hb hle
    constructor
    · simp [debit, hb, hle]
    · simp [insertBalance]
  · intro b hb hlt
    simp [burn, ensure_signed, update, updateLoop, updateStep, debit, hb,
      not_le.mpr hlt]

/-- Witness for C5 on `exState` (account 2 holds 7 of collection 0):
no entry at `(1, 3)`; over-debit of 9 fails and so does the corresponding
burn; debit of 5 stores `7 - 5`. -/
theorem C5_witness :
    exState.balances 1 3 = none
    ∧ exState.balances 0 2 = some 7
    ∧ (7 : Amount) < 9
    ∧ debit exState 1 3 4 = .error (.Module .CollectionDoesNotExist)
    ∧ debit exState 0 2 9 = .error (.Module .InsufficientBalance)
    ∧ burn (.signed 2) 0 9 exState = .error (.Module .InsufficientBalance)
    ∧ debit exState 0 2 5 = .ok (insertBalance exState 0 2 (7 - 5)) :=
  ⟨by decide, by decide, by decide,
   (C5_debit_cases exState 3 1 4).1 (by decide),
   (C5_debit_cases exState 2 0 9).2.1 7 (by decide) (by decide),
   (C5_debit_cases exState 2 0 9).2.2.2 7 (by decide) (by decide),
   ((C5_debit_cases exState 2 0 5).2.2.1 7 (by decide) (by decide)).1⟩

/-- C6: `mint` on a collection `c` created by owner `own`: fails
`CollectionDoesNotExist` when `c` was never created, fails `InvalidOwner`
for any signed caller other than `own`, and succeeds for `own`, after
which `balance_of dest c = x` and a `TransferSingle` event with
`operator = own`, `from = None`, `to = Some dest`, `id = c`, `value = x`
has been deposited. -/
theorem C6_mint_cases (s : State) (caller dest : AccountId)
    (c : CollectionId) (x : Amount) :
    (s.collections c = none →
      mint (.signed caller) dest c x s = .error (.Module .CollectionDoesNotExist))
    ∧ (∀ own, s.collections c = some own → caller ≠ own →
        mint (.signed caller) dest c x s = .error (.Module .InvalidOwner))
    ∧ (∀ own, s.collections c = some own → caller = own →
        ∃ s', mint (.signed caller) dest c x s = .ok s'
          ∧ s'.balances c dest = some x
          ∧ balance_of s' dest c = x
          ∧ s'.events = s.events
              ++ [.TransferSingle own none (some dest) c x]) := by
  refine ⟨?_, ?_, ?_⟩
  · intro h
    simp [mint, ensure_signed, h]
  · intro own h hne
    simp [mint, ensure_signed, h, Ne.symm hne]
  · intro own h heq
    subst heq
    refine ⟨depositEvent (insertBalance s c dest x)
      (.TransferSingle caller none (some dest) c x), ?_, ?_, ?_, ?_⟩
    · simp only [mint, ensure_signed, ok_bind, h]
      rw [if_pos trivial]
      rfl
    · simp [depositEvent, insertBalance]
    · simp [balance_of, depositEvent, insertBalance]
    · simp [depositEvent, insertBalance]

/-- Witness for C6 on `exOwned` (collection 0 owned by account 1). -/
theorem C6_witness :
    exOwned.collections 0 = some 1
    ∧ exOwned.collections 1 = none
    ∧ mint (.signed 2) 3 0 100 exOwned = .error (.Module .InvalidOwner)
    ∧ mint (.signed 1) 3 1 100 exOwned = .error (.Module .CollectionDoesNotExist)
    ∧ (∃ s', mint (.signed 1) 3 0 100 exOwned = .ok s'
        ∧ balance_of s' 3 0 = 100
        ∧ s'.events = exOwned.events
            ++ [.TransferSingle 1 none (some 3) 0 100]) :=
  ⟨by decide, by decide,
   (C6_mint_cases exOwned 2 3 0 100).2.1 1 (by decide) (by decide),
   (C6_mint_cases exOwned 1 3 1 100).1 (by decide),
   match (C6_mint_cases exOwned 1 3 0 100).2.2 1 (by decide) rfl with
   | ⟨s', h1, _, h3, h4⟩ => ⟨s', h1, h3, h4⟩⟩

theorem createdIds_eq (callers : List AccountId) :
    ∀ s : State,
      createdIds callers s = List.range' s.nextCollectionId callers.length := by
  induction callers with
  | nil => intro s; rfl
  | cons a rest ih =>
    intro s
    simp only [createdIds, create, ensure_signed, ok_bind, List.length_cons]
    rw [ih, List.range'_succ]
    rfl

/-- C7: a signed `create` never fails, records the current counter value
as the new collection's id mapped to the caller, and advances the counter
by exactly one `next` step; iterating `create` from the genesis state
hands out the ids `0, 1, 2, ...` in order, which are strictly increasing
and never reused. -/
theorem C7_create_allocates :
    (∀ (s : State) (a : AccountId),
      ∃ s', create (.signed a) s = .ok s'
        ∧ s'.collections s.nextCollectionId = some a
        ∧ s'.nextCollectionId = next s.nextCollectionId
        ∧ s'.events = s.events ++ [.CollectionCreated s.nextCollectionId a])
    ∧ (∀ callers : List AccountId,
        createdIds callers initState = List.range callers.length
        ∧ (createdIds callers initState).Pairwise (· < ·)) := by
  constructor
  · intro s a
    refine ⟨_, rfl, ?_, rfl, rfl⟩
    simp [depositEvent, insertCollection]
  · intro callers
    have h : createdIds callers initState = List.range callers.length := by
      rw [createdIds_eq, List.range_eq_range']
      rfl
    exact ⟨h, h ▸ List.pairwise_lt_range callers.length⟩

/-- C8: on every successful `update`, the deposited event is the
single-transfer shape carrying `ids[0]`/`amounts[0]` when `ids` has length
exactly 1, and the batch shape carrying the full sequences for every
other length, including 0. -/
theorem C8_event_shape (s s' : State) (op : AccountId)
    (source target : Option AccountId) (ids : List CollectionId)
    (amounts : List Amount)
    (h : update op source target ids amounts s = .ok s') :
    (ids.length = 1 →
      s'.events = s.events ++ [.TransferSingle op source target
        (ids.getD 0 0) (amounts.getD 0 0)])
    ∧ (ids.length ≠ 1 →
      s'.events = s.events ++ [.TransferBatch op source target ids amounts]) := by
  unfold update at h
  by_cases hlen : ids.length = amounts.length
  · rw [if_pos hlen] at h
    cases hl : updateLoop source target s (ids.zip amounts) with
    | error e => rw [hl] at h; simp at h
    | ok s₁ =>
      rw [hl] at h
      simp only [ok_bind] at h
      have hev := updateLoop_events hl
      by_cases h1 : ids.length = 1
      · rw [if_pos h1] at h
        simp only [Except.ok.injEq] at h
        subst h
        exact ⟨fun _ => by simp [depositEvent, hev], fun hc => absurd h1 hc⟩
      · rw [if_neg h1] at h
        simp only [Except.ok.injEq] at h
        subst h
        exact ⟨fun hc => absurd hc h1, fun _ => by simp [depositEvent, hev]⟩
  · rw [if_neg hlen] at h
    simp at h

/-- Witness for C8: a one-element update deposits `TransferSingle`, a
two-element update deposits `TransferBatch`. -/
theorem C8_witness :
    exMintState.events = initState.events
      ++ [.TransferSingle 1 none (some 2) 0 5]
    ∧ exBatchState.events = initState.events
      ++ [.TransferBatch 1 none (some 2) [0, 1] [5, 6]] :=
  ⟨(C8_event_shape initState exMintState 1 none (some 2) [0] [5] rfl).1
      (by decide),
   (C8_event_shape initState exBatchState 1 none (some 2) [0, 1] [5, 6] rfl).2
      (by decide)⟩

theorem nonneg_insertBalance {s : State} {id : CollectionId} {a : AccountId}
    {v : Amount} (hs : NonnegState s) (hv : 0 ≤ v) :
    NonnegState (insertBalance s id a v) := by
  intro c a' b hb
  simp only [insertBalance] at hb
  split at hb
  · simp only [Option.some.injEq] at hb
    subst hb
    exact hv
  · exact hs c a' b hb

theorem nonneg_debit {s s' : State} {id : CollectionId} {f : AccountId}
    {x : Amount} (hs : NonnegState s) (h : debit s id f x = .ok s') :
    NonnegState s' := by
  unfold debit at h
  cases hb : s.balances id f with
  | none => simp [hb] at h
  | some b =>
    simp only [hb] at h
    by_cases hge : b ≥ x
    · rw [if_pos hge] at h
      simp only [Except.ok.injEq] at h
      subst h
      exact nonneg_insertBalance hs (sub_nonneg.mpr hge)
    · rw [if_neg hge] at h
      simp at h

theorem nonneg_updateStep {source target : Option AccountId} {s s' : State}
    {id : CollectionId} {x : Amount} (hs : NonnegState s) (hx : 0 ≤ x)
    (h : updateStep source target s id x = .ok s') : NonnegState s' := by
  unfold updateStep at h
  cases source with
  | none =>
    simp only [ok_bind] at h
    cases target with
    | none =>
      simp only [Except.ok.injEq] at h
      subst h
      exact hs
    | some t =>
      simp only [Except.ok.injEq] at h
      subst h
      exact nonneg_insertBalance hs hx
  | some f =>
    unfold debit at h
    cases hb : s.balances id f with
    | none => simp [hb] at h
    | some b =>
      simp only [hb] at h
      by_cases hge : b ≥ x
      · simp only [if_pos hge, ok_bind] at h
        cases target with
        | none =>
          simp only [Except.ok.injEq] at h
          subst h
          exact nonneg_insertBalance hs (sub_nonneg.mpr hge)
        | some t =>
          simp only [Except.ok.injEq] at h
          subst h
          exact nonneg_insertBalance
            (nonneg_insertBalance hs (sub_nonneg.mpr hge)) hx
      · simp [if_neg hge] at h

theorem nonneg_updateLoop {source target : Option AccountId} :
    ∀ {l : List (CollectionId × Amount)} {s s' : State}, NonnegState s →
      (∀ p ∈ l, (0:Amount) ≤ p.2) →
      updateLoop source target s l = .ok s' → NonnegState s' := by
  intro l
  induction l with
  | nil =>
    intro s s' hs _ h
    simp only [updateLoop, Except.ok.injEq] at h
    subst h
    exact hs
  | cons p rest ih =>
    intro s s' hs hp h
    obtain ⟨id, x⟩ := p
    unfold updateLoop at h
    cases hstep : updateStep source target s id x with
    | error e => rw [hstep] at h; simp at h
    | ok s₁ =>
      rw [hstep] at h
      simp only [ok_bind] at h
      exact ih (nonneg_updateStep hs (hp (id, x) (by simp)) hstep)
        (fun q hq => hp q (List.mem_cons_of_mem _ hq)) h

theorem nonneg_update {op : AccountId} {source target : Option AccountId}
    {ids : List CollectionId} {amounts : List Amount} {s s' : State}
    (hs : NonnegState s) (ha : NonnegAmounts amounts)
    (h : update op source target ids amounts s = .ok s') : NonnegState s' := by
  unfold update at h
  by_cases hlen : ids.length = amounts.length
  · rw [if_pos hlen] at h
    cases hl : updateLoop source target s (ids.zip amounts) with
    | error e => rw [hl] at h; simp at h
    | ok s₁ =>
      rw [hl] at h
      simp only [ok_bind] at h
      have hs₁ : NonnegState s₁ := by
        refine nonneg_updateLoop hs ?_ hl
        intro p hp
        obtain ⟨pc, px⟩ := p
        exact ha px (List.of_mem_zip hp).2
      by_cases h1 : ids.length = 1
      · rw [if_pos h1] at h
        simp only [Except.ok.injEq] at h
        subst h
        exact hs₁
      · rw [if_neg h1] at h
        simp only [Except.ok.injEq] at h
        subst h
        exact hs₁
  · rw [if_neg hlen] at h
    simp at h

theorem nonneg_singleton {x : Amount} (hx : 0 ≤ x) : NonnegAmounts [x] := by
  intro y hy
  simp only [List.mem_singleton] at hy
  subst hy
  exact hx

theorem nonneg_exState : NonnegState exState := by
  intro c a b hb
  simp only [exState, insertBalance, initState] at hb
  split at hb
  · simp only [Option.some.injEq] at hb
    subst hb
    decide
  · simp at hb

/-- C10: every operation of the pallet preserves the invariant that each
stored balance entry is nonnegative, given that the (unsigned in Rust)
amounts passed in are nonnegative: the debit subtraction is guarded by
`from_balance >= amount`, so it never drops an entry below zero, and no
reachable state holds a negative balance. -/
theorem C10_nonneg_invariant (s : State) (hs : NonnegState s) :
    (∀ o s', create o s = .ok s' → NonnegState s')
    ∧ (∀ o op ap s', set_approval_for_all o op ap s = .ok s' → NonnegState s')
    ∧ (∀ o f d c x s', 0 ≤ x →
        safe_transfer_from o f d c x s = .ok s' → NonnegState s')
    ∧ (∀ o f d ids amounts s', NonnegAmounts amounts →
        safe_batch_transfer_from o f d ids amounts s = .ok s' → NonnegState s')
    ∧ (∀ o d c x s', 0 ≤ x → mint o d c x s = .ok s' → NonnegState s')
    ∧ (∀ o d ids amounts s', NonnegAmounts amounts →
        mint_batch o d ids amounts s = .ok s' → NonnegState s')
    ∧ (∀ o c x s', 0 ≤ x → burn o c x s = .ok s' → NonnegState s')
    ∧ (∀ o ids amounts s', NonnegAmounts amounts →
        burn_batch o ids amounts s = .ok s' → NonnegState s') := by
  refine ⟨?_, ?_, ?_, ?_, ?_, ?_, ?_, ?_⟩
  · intro o s' h
    cases o with
    | signed who =>
      simp only [create, ensure_signed, ok_bind, Except.ok.injEq] at h
      subst h
      exact hs
    | root => simp [create, ensure_signed] at h
    | none_ => simp [create, ensure_signed] at h
  · intro o op ap s' h
    cases o with
    | signed who =>
      simp only [set_approval_for_all, ensure_signed, ok_bind] at h
      by_cases hne : who ≠ op
      · rw [if_pos hne] at h
        simp only [Except.ok.injEq] at h
        subst h
        exact hs
      · rw [if_neg hne] at h
        simp at h
    | root => simp [set_approval_for_all, ensure_signed] at h
    | none_ => simp [set_approval_for_all, ensure_signed] at h
  · intro o f d c x s' hx h
    cases o with
    | signed who =>
      simp only [safe_transfer_from, ensure_signed, ok_bind] at h
      by_cases hne : f ≠ who
      · rw [if_pos hne] at h
        exact nonneg_update hs (nonneg_singleton hx) h
      · rw [if_neg hne] at h
        simp at h
    | root => simp [safe_transfer_from, ensure_signed] at h
    | none_ => simp [safe_transfer_from, ensure_signed] at h
  · intro o f d ids amounts s' ha h
    cases o with
    | signed who =>
      simp only [safe_batch_transfer_from, ensure_signed, ok_bind] at h
      by_cases hap : f = who ∨ is_approved_for_all s f who
      · rw [if_pos hap] at h
        exact nonneg_update hs ha h
      · rw [if_neg hap] at h
        simp at h
    | root => simp [safe_batch_transfer_from, ensure_signed] at h
    | none_ => simp [safe_batch_transfer_from, ensure_signed] at h
  · intro o d c x s' hx h
    cases o with
    | signed who =>
      simp only [mint, ensure_signed, ok_bind] at h
      split at h
      · split at h
        · exact nonneg_update hs (nonneg_singleton hx) h
        · simp at h
      · simp at h
    | root => simp [mint, ensure_signed] at h
    | none_ => simp [mint, ensure_signed] at h
  · intro o d ids amounts s' _ h
    cases o <;> simp [mint_batch, ensure_root, ensure_signed] at h
  · intro o c x s' hx h
    cases o with
    | signed who =>
      simp only [burn, ensure_signed, ok_bind] at h
      exact nonneg_update hs (nonneg_singleton hx) h
    | root => simp [burn, ensure_signed] at h
    | none_ => simp [burn, ensure_signed] at h
  · intro o ids amounts s' ha h
    cases o with
    | signed who =>
      simp only [burn_batch, ensure_signed, ok_bind] at h
      exact nonneg_update hs ha h
    | root => simp [burn_batch, ensure_signed] at h
    | none_ => simp [burn_batch, ensure_signed] at h

/-- Witness for C10: a concrete burn of 5 out of 7 preserves the
nonnegativity invariant. -/
theorem C10_witness :
    NonnegState exState ∧ (0 : Amount) ≤ 5 ∧ NonnegState exBurnState :=
  ⟨nonneg_exState, by decide,
   (C10_nonneg_invariant exState nonneg_exState).2.2.2.2.2.2.1
     (.signed 2) 0 5 exBurnState (by decide) rfl⟩

end Multitoken
